import Mathlib

/-!
Shallow embedding of `pygame_player.py` (repository PyGamePlayer).

The file models, directly from the source:
- `function_intercept`, which wraps a library entry point with a handler;
- the five global pygame entry points the session swaps
  (`pygame.display.flip`, `pygame.display.update`, `pygame.event.get`,
  `pygame.time.Clock`, `pygame.time.get_ticks`) as a `Globals` record of
  opaque function references, so that Python reference equality becomes
  plain equality of `FRef` values;
- the `PyGamePlayer` object state, `start`/`stop`, the `playing` setter,
  the `with`-statement plumbing (`__enter__`/`__exit__`);
- the frame handler `_on_screen_update`, the event-synthesis handler
  `_on_event_get`, the clock-construction handler `_on_time_clock`, and the
  `_FixedFPSClock` adapter.

Numbers are modelled exactly: Python floats become `ℚ`, Python ints become
`ℤ`. Python exceptions become explicit result constructors carrying the
state at the moment of the raise. `_FixedFPSClock` stores its two
constructor arguments as `PyCallable` values because the source passes a
float (`self._game_time`) in a position its own signature names
`get_time_ms_func`; calling a stored non-callable is a `TypeError`, as in
Python.
-/

namespace PyGamePlayerModel

/-- pygame event-type constant `KEYDOWN` (pygame.constants). -/
def KEYDOWN : ℤ := 2

/-- pygame event-type constant `KEYUP` (pygame.constants). -/
def KEYUP : ℤ := 3

/-- pygame event-type constant `QUIT` (pygame.constants). -/
def QUIT : ℤ := 12

/-- The session handler methods that `start` binds into wrappers. -/
inductive Handler where
  | onScreenUpdate
  | onEventGet
  | onTimeClock
  | getGameTimeMs
  deriving DecidableEq

/-- A Python function reference held in one of the five global entry-point
slots: either some pre-existing library function (`base`, indexed opaquely)
or a wrapper produced by `function_intercept`. Equality of `FRef` values
models Python reference equality (`is`). -/
inductive FRef where
  | base : ℕ → FRef
  | wrap : FRef → Handler → FRef
  deriving DecidableEq

/-- Source `function_intercept(intercepted_func, intercepting_func)`:
returns a new closure wrapping the intercepted function; the observer here
is always one of the session's bound handler methods. -/
def function_intercept (intercepted_func : FRef) (intercepting_func : Handler) : FRef :=
  FRef.wrap intercepted_func intercepting_func

/-- The five process-wide pygame entry-point slots the session swaps. -/
structure Globals where
  flip : FRef
  update : FRef
  event_get : FRef
  time_Clock : FRef
  get_ticks : FRef
  deriving DecidableEq

/-- State of a `PyGamePlayer` object. Field names follow the source
attributes (`_keys_pressed`, `_last_keys_pressed`, `_playing`,
`_default_flip`, ..., `_game_time`) with the leading underscore dropped. -/
structure Player where
  desired_fps : ℚ
  keys_pressed : List ℤ
  last_keys_pressed : List ℤ
  playing : Bool
  default_flip : FRef
  default_update : FRef
  default_event_get : FRef
  default_time_clock : FRef
  default_get_ticks : FRef
  game_time : ℚ
  deriving DecidableEq

/-- Source `PyGamePlayer.__init__(desired_fps)`: saves the current globals
into the `_default_*` attributes, empty key lists, not playing,
`_game_time = 0.0`. -/
def Player.init (desired_fps : ℚ) (g : Globals) : Player :=
  { desired_fps := desired_fps
    keys_pressed := []
    last_keys_pressed := []
    playing := false
    default_flip := g.flip
    default_update := g.update
    default_event_get := g.event_get
    default_time_clock := g.time_Clock
    default_get_ticks := g.get_ticks
    game_time := 0 }

/-- Result of a lifecycle call: either the updated player and globals, or a
raised exception together with the (unchanged up to the raise point) player
and globals at the moment of the raise. -/
inductive StepResult where
  | ok (p : Player) (g : Globals)
  | err (msg : String) (p : Player) (g : Globals)
  deriving DecidableEq

/-- Player state carried by a `StepResult`. -/
def StepResult.player : StepResult → Player
  | .ok p _ => p
  | .err _ p _ => p

/-- Source `PyGamePlayer.start`: raises if already playing; otherwise saves
the five current globals as the restore set, installs the five intercepted
wrappers, and sets playing. -/
def start (p : Player) (g : Globals) : StepResult :=
  if p.playing then StepResult.err "Already playing" p g
  else
    StepResult.ok
      { p with
        default_flip := g.flip
        default_update := g.update
        default_event_get := g.event_get
        default_time_clock := g.time_Clock
        default_get_ticks := g.get_ticks
        playing := true }
      { flip := function_intercept g.flip Handler.onScreenUpdate
        update := function_intercept g.update Handler.onScreenUpdate
        event_get := function_intercept g.event_get Handler.onEventGet
        time_Clock := function_intercept g.time_Clock Handler.onTimeClock
        get_ticks := function_intercept g.get_ticks Handler.getGameTimeMs }

/-- Source `PyGamePlayer.stop`: raises if not playing; otherwise restores
the five saved entry points verbatim and clears the playing flag. -/
def stop (p : Player) (g : Globals) : StepResult :=
  if p.playing then
    StepResult.ok { p with playing := false }
      { flip := p.default_flip
        update := p.default_update
        event_get := p.default_event_get
        time_Clock := p.default_time_clock
        get_ticks := p.default_get_ticks }
  else StepResult.err "Already stopped" p g

/-- Source `PyGamePlayer._get_ms_per_frame`: `1000.0 / self.desired_fps`. -/
def get_ms_per_frame (desired_fps : ℚ) : ℚ := 1000 / desired_fps

/-- Source `PyGamePlayer._get_game_time_ms`: returns `self._game_time`. -/
def get_game_time_ms (p : Player) : ℚ := p.game_time

/-- Source `PyGamePlayer._on_screen_update`: the frame handler. The frame
capture, `get_feedback()` and `get_keys_pressed(...)` calls are abstract
subclass callbacks; their combined effect per invocation is the key list
`keys` they return. The handler shifts the key lists and advances
`_game_time` by `_get_ms_per_frame()`. -/
def on_screen_update (keys : List ℤ) (p : Player) : Player :=
  { p with
    last_keys_pressed := p.keys_pressed
    keys_pressed := keys
    game_time := p.game_time + get_ms_per_frame p.desired_fps }

/-- N successive frame-handler invocations, the n-th supplying the key list
`ks n` (the n-th result of the subclass callback). -/
def iterate_frames (ks : ℕ → List ℤ) : ℕ → Player → Player
  | 0, p => p
  | n + 1, p => on_screen_update (ks n) (iterate_frames ks n p)

/-- A pygame event record: `pygame.event.Event(type, {"key": k})`. -/
structure PyEvent where
  etype : ℤ
  key : ℤ
  deriving DecidableEq

/-- Source list comprehension for `key_down_events` in `_on_event_get`. -/
def keyDownEvents (p : Player) : List PyEvent :=
  (p.keys_pressed.filter (fun x => !(p.last_keys_pressed.contains x))).map
    (fun x => { etype := KEYDOWN, key := x })

/-- Source list comprehension for `key_up_events` in `_on_event_get`. -/
def keyUpEvents (p : Player) : List PyEvent :=
  (p.last_keys_pressed.filter (fun x => !(p.keys_pressed.contains x))).map
    (fun x => { etype := KEYUP, key := x })

/-- A positional argument to the intercepted `pygame.event.get`: either a
single (non-iterable) type filter, or an iterable of type filters. -/
inductive PollArg where
  | single (f : ℤ)
  | iter (fs : List ℤ)
  deriving DecidableEq

/-- Python `==` between a loop item and an int constant: a list compares
unequal to any int. -/
def pyEqInt (a : PollArg) (n : ℤ) : Bool :=
  match a with
  | .single m => m == n
  | .iter _ => false

/-- One iteration of the `for type_filter in args` loop in
`_on_event_get`: `QUIT` is passed over, `KEYUP` appends the key-up events,
`KEYDOWN` appends the key-down events, anything else appends nothing. -/
def loopStep (key_down_events key_up_events : List PyEvent)
    (result : List PyEvent) (type_filter : PollArg) : List PyEvent :=
  if pyEqInt type_filter QUIT then result
  else if pyEqInt type_filter KEYUP then result ++ key_up_events
  else if pyEqInt type_filter KEYDOWN then result ++ key_down_events
  else result

/-- Source `PyGamePlayer._on_event_get`: with no positional args, returns
`key_down_events + key_up_events`; otherwise, if the first arg is iterable
the arg tuple is replaced by that iterable's elements, and the loop above
accumulates the result. -/
def on_event_get (p : Player) (args : List PollArg) : List PyEvent :=
  let key_down_events := keyDownEvents p
  let key_up_events := keyUpEvents p
  match args with
  | [] => key_down_events ++ key_up_events
  | a :: rest =>
    let items : List PollArg :=
      match a with
      | .iter fs => fs.map PollArg.single
      | .single _ => a :: rest
    items.foldl (loopStep key_down_events key_up_events) []

/-- A Python value stored where `_FixedFPSClock` expects an accessor
function: either the bound method `self._get_ms_per_frame` (which closes
over `desired_fps`), or a bare float (which the source also passes). -/
inductive PyCallable where
  | num (q : ℚ)
  | msPerFrameMethod (desired_fps : ℚ)
  deriving DecidableEq

/-- Python runtime errors arising in the modelled fragment. -/
inductive PyErr where
  | typeError
  deriving DecidableEq

/-- Calling a stored value: a bound method runs; a float is not callable
and raises `TypeError`. -/
def callPy : PyCallable → Except PyErr ℚ
  | .num _ => Except.error PyErr.typeError
  | .msPerFrameMethod fps => Except.ok (get_ms_per_frame fps)

/-- State of a `PyGamePlayer._FixedFPSClock` object: the two constructor
arguments as stored by `__init__`. -/
structure FixedFPSClock where
  get_ms_per_frame_func : PyCallable
  get_time_ms_func : PyCallable
  deriving DecidableEq

/-- Source `PyGamePlayer._on_time_clock`: constructs
`_FixedFPSClock(self._get_ms_per_frame, self._game_time)` — note the second
argument is the float value of `_game_time`, not an accessor function. -/
def on_time_clock (p : Player) : FixedFPSClock :=
  { get_ms_per_frame_func := PyCallable.msPerFrameMethod p.desired_fps
    get_time_ms_func := PyCallable.num p.game_time }

/-- Source `_FixedFPSClock.tick`: returns `self._get_ms_per_frame_func()`. -/
def FixedFPSClock.tick (c : FixedFPSClock) : Except PyErr ℚ :=
  callPy c.get_ms_per_frame_func

/-- Source `_FixedFPSClock.get_time`: returns `self._get_time_ms_func()`. -/
def FixedFPSClock.get_time (c : FixedFPSClock) : Except PyErr ℚ :=
  callPy c.get_time_ms_func

/-- Source `_FixedFPSClock.get_raw_time`: returns `self._get_time_ms_func()`. -/
def FixedFPSClock.get_raw_time (c : FixedFPSClock) : Except PyErr ℚ :=
  callPy c.get_time_ms_func

/-- Python `int(...)` on a float: truncation toward zero. -/
def pyInt (q : ℚ) : ℤ := if 0 ≤ q then ⌊q⌋ else ⌈q⌉

/-- Source `_FixedFPSClock.get_fps`: returns
`int(1.0 / self._get_ms_per_frame_func())`. -/
def FixedFPSClock.get_fps (c : FixedFPSClock) : Except PyErr ℤ := do
  let ms ← callPy c.get_ms_per_frame_func
  pure (pyInt (1 / ms))

/-- Source `playing` setter: writing the current value returns at once;
otherwise it calls `stop` (when playing) or `start` (when not). -/
def setPlaying (p : Player) (g : Globals) (value : Bool) : StepResult :=
  if p.playing == value then StepResult.ok p g
  else if p.playing then stop p g
  else start p g

/-- How the body of a `with player:` block terminates: normally, or with a
propagating exception; either way it may have changed the globals. -/
inductive BodyOutcome where
  | normal (g : Globals)
  | raised (e : String) (g : Globals)

/-- Outcome of the whole `with` statement. -/
inductive WithResult where
  | ok (p : Player) (g : Globals)
  | raisedThrough (e : String) (p : Player) (g : Globals)
  | enterRaised (e : String) (p : Player) (g : Globals)

/-- Globals in force after the `with` statement finishes (or after its
exception propagates). -/
def WithResult.globals : WithResult → Globals
  | .ok _ g => g
  | .raisedThrough _ _ g => g
  | .enterRaised _ _ g => g

/-- Python `with player: body` with `__enter__ = start` and
`__exit__ = stop` (source `PyGamePlayer.__enter__`/`__exit__`): `start`
runs first; if it raises, neither the body nor `stop` runs. Otherwise the
body runs and `stop` is invoked exactly once on the way out — after a
normal body and after a raising body alike (CPython runs `__exit__` in
both cases; `__exit__` returns `None`, so a body exception propagates).
The second component counts the `stop` invocations made. -/
def runWith (p : Player) (g : Globals) (body : Globals → BodyOutcome) :
    WithResult × ℕ :=
  match start p g with
  | .err e p' g' => (.enterRaised e p' g', 0)
  | .ok p1 g1 =>
    match body g1 with
    | .normal g2 =>
      match stop p1 g2 with
      | .ok p2 g3 => (.ok p2 g3, 1)
      | .err e p2 g3 => (.raisedThrough e p2 g3, 1)
    | .raised e g2 =>
      match stop p1 g2 with
      | .ok p2 g3 => (.raisedThrough e p2 g3, 1)
      | .err e2 p2 g3 => (.raisedThrough e2 p2 g3, 1)

/-- What the spec says a single type filter contributes to a filtered
poll: nothing for `QUIT`, the key-up events for `KEYUP`, the key-down
events for `KEYDOWN`, nothing for anything unrecognized. -/
def filterResultSpec (key_down_events key_up_events : List PyEvent) (f : ℤ) :
    List PyEvent :=
  if f = QUIT then []
  else if f = KEYUP then key_up_events
  else if f = KEYDOWN then key_down_events
  else []

/-- Per-item contribution of the `_on_event_get` loop, as a value. -/
def stepVal (key_down_events key_up_events : List PyEvent) : PollArg → List PyEvent
  | .single f => filterResultSpec key_down_events key_up_events f
  | .iter _ => []

/-- A concrete set of library defaults, used to instantiate theorems. -/
def demoGlobals : Globals :=
  { flip := FRef.base 0
    update := FRef.base 1
    event_get := FRef.base 2
    time_Clock := FRef.base 3
    get_ticks := FRef.base 4 }

/-- A freshly constructed session at 10 fps over the demo defaults. -/
def demoPlayer : Player := Player.init 10 demoGlobals

/-! Helper lemmas shared by the claim theorems. -/

theorem loopStep_eq_append (kd ku : List PyEvent) (r : List PyEvent) (a : PollArg) :
    loopStep kd ku r a = r ++ stepVal kd ku a := by
  cases a with
  | single f =>
    simp only [loopStep, stepVal, filterResultSpec, pyEqInt, beq_iff_eq]
    by_cases hq : f = QUIT
    · rw [if_pos hq, if_pos hq]
      simp
    · rw [if_neg hq, if_neg hq]
      by_cases hu : f = KEYUP
      · rw [if_pos hu, if_pos hu]
      · rw [if_neg hu, if_neg hu]
        by_cases hd : f = KEYDOWN
        · rw [if_pos hd, if_pos hd]
        · rw [if_neg hd, if_neg hd]
          simp
  | iter fs =>
    simp [loopStep, stepVal, pyEqInt]

theorem stepVal_single (kd ku : List PyEvent) (f : ℤ) :
    stepVal kd ku (PollArg.single f) = filterResultSpec kd ku f := rfl

theorem stepVal_comp_single (kd ku : List PyEvent) :
    stepVal kd ku ∘ PollArg.single = filterResultSpec kd ku :=
  funext fun _ => rfl

theorem foldl_loopStep (kd ku : List PyEvent) (items : List PollArg) (acc : List PyEvent) :
    items.foldl (loopStep kd ku) acc = acc ++ (items.map (stepVal kd ku)).flatten := by
  induction items generalizing acc with
  | nil => simp
  | cons a rest ih =>
    simp only [List.foldl_cons, List.map_cons, List.flatten_cons, ih, loopStep_eq_append,
      List.append_assoc]

theorem mem_keyDownEvents_etype {p : Player} {e : PyEvent}
    (h : e ∈ keyDownEvents p) : e.etype = KEYDOWN := by
  simp only [keyDownEvents, List.mem_map, List.mem_filter] at h
  obtain ⟨x, _, rfl⟩ := h
  rfl

theorem mem_keyUpEvents_etype {p : Player} {e : PyEvent}
    (h : e ∈ keyUpEvents p) : e.etype = KEYUP := by
  simp only [keyUpEvents, List.mem_map, List.mem_filter] at h
  obtain ⟨x, _, rfl⟩ := h
  rfl

theorem mem_stepVal {kd ku : List PyEvent} {e : PyEvent} {a : PollArg}
    (h : e ∈ stepVal kd ku a) : e ∈ kd ∨ e ∈ ku := by
  cases a with
  | single f =>
    simp only [stepVal, filterResultSpec] at h
    by_cases hq : f = QUIT
    · rw [if_pos hq] at h
      simp at h
    · rw [if_neg hq] at h
      by_cases hu : f = KEYUP
      · rw [if_pos hu] at h
        exact Or.inr h
      · rw [if_neg hu] at h
        by_cases hd : f = KEYDOWN
        · rw [if_pos hd] at h
          exact Or.inl h
        · rw [if_neg hd] at h
          simp at h
  | iter fs =>
    simp [stepVal] at h

theorem mem_on_event_get {p : Player} {args : List PollArg} {e : PyEvent}
    (h : e ∈ on_event_get p args) : e ∈ keyDownEvents p ∨ e ∈ keyUpEvents p := by
  match args with
  | [] =>
    simp only [on_event_get, List.mem_append] at h
    exact h
  | a :: rest =>
    simp only [on_event_get] at h
    rw [foldl_loopStep] at h
    simp only [List.nil_append, List.mem_flatten, List.mem_map] at h
    obtain ⟨l, ⟨x, _, rfl⟩, hl⟩ := h
    exact mem_stepVal hl

theorem start_eq_of_not_playing (p : Player) (g : Globals) (h : p.playing = false) :
    start p g = StepResult.ok
      { p with
        default_flip := g.flip
        default_update := g.update
        default_event_get := g.event_get
        default_time_clock := g.time_Clock
        default_get_ticks := g.get_ticks
        playing := true }
      { flip := FRef.wrap g.flip Handler.onScreenUpdate
        update := FRef.wrap g.update Handler.onScreenUpdate
        event_get := FRef.wrap g.event_get Handler.onEventGet
        time_Clock := FRef.wrap g.time_Clock Handler.onTimeClock
        get_ticks := FRef.wrap g.get_ticks Handler.getGameTimeMs } := by
  simp [start, h, function_intercept]

theorem stop_eq_of_playing (p : Player) (g : Globals) (h : p.playing = true) :
    stop p g = StepResult.ok { p with playing := false }
      { flip := p.default_flip
        update := p.default_update
        event_get := p.default_event_get
        time_Clock := p.default_time_clock
        get_ticks := p.default_get_ticks } := by
  simp [stop, h]

theorem iterate_frames_invariants (ks : ℕ → List ℤ) (N : ℕ) (p : Player) :
    (iterate_frames ks N p).desired_fps = p.desired_fps ∧
      (iterate_frames ks N p).game_time =
        p.game_time + N * (1000 / p.desired_fps) := by
  induction N with
  | zero => simp [iterate_frames]
  | succ n ih =>
    obtain ⟨h1, h2⟩ := ih
    refine ⟨?_, ?_⟩
    · simp [iterate_frames, on_screen_update, h1]
    · simp only [iterate_frames, on_screen_update, get_ms_per_frame, h1, h2]
      push_cast
      ring

/-! Claim theorems. -/

/-- C1: for a session that is not playing, `start()` followed by `stop()`
succeeds and restores all five global entry points — `display.flip`,
`display.update`, `event.get`, `time.Clock`, `time.get_ticks` — to exactly
(reference equality, i.e. `FRef` equality) the values they held immediately
before `start()`, so invoking any of them afterwards behaves as before any
`start()` occurred. -/
theorem start_stop_restores_globals (p : Player) (g : Globals)
    (h : p.playing = false) :
    ∃ p1 g1 p2, start p g = StepResult.ok p1 g1 ∧
      stop p1 g1 = StepResult.ok p2 g ∧ p2.playing = false := by
  rw [start_eq_of_not_playing p g h]
  refine ⟨_, _,
    { p with
      default_flip := g.flip
      default_update := g.update
      default_event_get := g.event_get
      default_time_clock := g.time_Clock
      default_get_ticks := g.get_ticks
      playing := false },
    rfl, ?_, rfl⟩
  rw [stop_eq_of_playing _ _ rfl]

/-- Witness for C1 at a concrete session. -/
theorem start_stop_restores_globals_witness :
    demoPlayer.playing = false ∧
      ∃ p1 g1 p2, start demoPlayer demoGlobals = StepResult.ok p1 g1 ∧
        stop p1 g1 = StepResult.ok p2 demoGlobals ∧ p2.playing = false :=
  ⟨rfl, start_stop_restores_globals demoPlayer demoGlobals rfl⟩

/-- C7: `start()` raises exactly when the session is already playing, and
`stop()` raises exactly when it is not; in either error case the raise
happens before any mutation, so the player and globals are returned
unchanged. -/
theorem start_stop_raise_iff (p : Player) (g : Globals) :
    ((∃ m, start p g = StepResult.err m p g) ↔ p.playing = true) ∧
      ((∃ m, stop p g = StepResult.err m p g) ↔ p.playing = false) := by
  cases hp : p.playing <;> simp [start, stop, hp]

/-- C8: writing any boolean to the `playing` property never raises; writing
the current value changes nothing (same player, same globals), writing
`true` while stopped performs exactly the `start()` transition, and writing
`false` while playing performs exactly the `stop()` transition. -/
theorem playing_setter_total (p : Player) (g : Globals) (v : Bool) :
    (∃ p1 g1, setPlaying p g v = StepResult.ok p1 g1) ∧
      (v = p.playing → setPlaying p g v = StepResult.ok p g) ∧
      (v = true → p.playing = false → setPlaying p g v = start p g) ∧
      (v = false → p.playing = true → setPlaying p g v = stop p g) := by
  cases hp : p.playing <;> cases v <;>
    simp [setPlaying, start, stop, hp]

/-- Witness for C8 at a concrete session and value. -/
theorem playing_setter_total_witness :
    (∃ p1 g1, setPlaying demoPlayer demoGlobals true = StepResult.ok p1 g1) ∧
      (true = demoPlayer.playing →
        setPlaying demoPlayer demoGlobals true = StepResult.ok demoPlayer demoGlobals) ∧
      (true = true → demoPlayer.playing = false →
        setPlaying demoPlayer demoGlobals true = start demoPlayer demoGlobals) ∧
      (true = false → demoPlayer.playing = true →
        setPlaying demoPlayer demoGlobals true = stop demoPlayer demoGlobals) :=
  playing_setter_total demoPlayer demoGlobals true

/-- C2: a poll with no type filter returns exactly the key-down events for
the keys in `current_keys` missing from `previous_keys` (in `current_keys`
order), followed by the key-up events for the keys in `previous_keys`
missing from `current_keys` (in `previous_keys` order); in particular, with
`current_keys = [A, B]` and `previous_keys = [A]` (distinct keys) it
returns exactly one key-down event for `B` and no key-up events. -/
theorem on_event_get_no_filter (p : Player) (A B : ℤ) (hAB : A ≠ B) :
    on_event_get p [] =
      (p.keys_pressed.filter (fun x => !(p.last_keys_pressed.contains x))).map
        (fun x => { etype := KEYDOWN, key := x }) ++
      (p.last_keys_pressed.filter (fun x => !(p.keys_pressed.contains x))).map
        (fun x => { etype := KEYUP, key := x }) ∧
    on_event_get { p with keys_pressed := [A, B], last_keys_pressed := [A] } [] =
      [{ etype := KEYDOWN, key := B }] := by
  refine ⟨rfl, ?_⟩
  simp [on_event_get, keyDownEvents, keyUpEvents, hAB, Ne.symm hAB]

/-- Witness for C2 at concrete key lists. -/
theorem on_event_get_no_filter_witness :
    ((1 : ℤ) ≠ 2) ∧
      (on_event_get demoPlayer [] =
        (demoPlayer.keys_pressed.filter
          (fun x => !(demoPlayer.last_keys_pressed.contains x))).map
            (fun x => { etype := KEYDOWN, key := x }) ++
        (demoPlayer.last_keys_pressed.filter
          (fun x => !(demoPlayer.keys_pressed.contains x))).map
            (fun x => { etype := KEYUP, key := x }) ∧
      on_event_get
          { demoPlayer with keys_pressed := [1, 2], last_keys_pressed := [1] } [] =
        [{ etype := KEYDOWN, key := 2 }]) :=
  ⟨by decide, on_event_get_no_filter demoPlayer 1 2 (by decide)⟩

/-- C3: a poll called with one or more type filters — either as separate
single filters or as one iterable of filters — returns the concatenation,
per filter in the order given, of: nothing for a `QUIT` filter, the key-up
events for a `KEYUP` filter, the key-down events for a `KEYDOWN` filter,
and nothing for an unrecognized filter; moreover no poll (whatever its
arguments and whatever the key-set state) ever returns a `QUIT` event. -/
theorem on_event_get_filtered (p : Player) (fs : List ℤ) (h : fs ≠ [])
    (args : List PollArg) :
    on_event_get p (fs.map PollArg.single) =
      (fs.map (filterResultSpec (keyDownEvents p) (keyUpEvents p))).flatten ∧
    on_event_get p [PollArg.iter fs] =
      (fs.map (filterResultSpec (keyDownEvents p) (keyUpEvents p))).flatten ∧
    ∀ e ∈ on_event_get p args, e.etype ≠ QUIT := by
  refine ⟨?_, ?_, ?_⟩
  · obtain ⟨f, rest, rfl⟩ : ∃ f rest, fs = f :: rest := by
      cases fs with
      | nil => exact absurd rfl h
      | cons f rest => exact ⟨f, rest, rfl⟩
    show ((PollArg.single f :: rest.map PollArg.single).foldl
        (loopStep (keyDownEvents p) (keyUpEvents p)) []) = _
    rw [foldl_loopStep]
    simp only [List.nil_append, List.map_cons, List.map_map, stepVal_single,
      stepVal_comp_single]
  · show ((fs.map PollArg.single).foldl
        (loopStep (keyDownEvents p) (keyUpEvents p)) []) = _
    rw [foldl_loopStep]
    simp only [List.nil_append, List.map_map, stepVal_comp_single]
  · intro e he
    rcases mem_on_event_get he with hd | hu
    · rw [mem_keyDownEvents_etype hd]
      decide
    · rw [mem_keyUpEvents_etype hu]
      decide

/-- Witness for C3 at a concrete filter list. -/
theorem on_event_get_filtered_witness :
    (([KEYDOWN, QUIT] : List ℤ) ≠ []) ∧
      (on_event_get demoPlayer ([KEYDOWN, QUIT].map PollArg.single) =
        ([KEYDOWN, QUIT].map
          (filterResultSpec (keyDownEvents demoPlayer) (keyUpEvents demoPlayer))).flatten ∧
      on_event_get demoPlayer [PollArg.iter [KEYDOWN, QUIT]] =
        ([KEYDOWN, QUIT].map
          (filterResultSpec (keyDownEvents demoPlayer) (keyUpEvents demoPlayer))).flatten ∧
      ∀ e ∈ on_event_get demoPlayer [PollArg.single QUIT], e.etype ≠ QUIT) :=
  ⟨by decide,
    on_event_get_filtered demoPlayer [KEYDOWN, QUIT] (by decide) [PollArg.single QUIT]⟩

/-- C10: when the first positional argument of a poll is itself an
iterable, only the filters inside that iterable are processed: any further
positional arguments are silently ignored and contribute no events. -/
theorem on_event_get_extra_args_ignored (p : Player) (fs : List ℤ)
    (rest : List PollArg) :
    on_event_get p (PollArg.iter fs :: rest) = on_event_get p [PollArg.iter fs] := rfl

/-- C4: starting from `game_time = 0`, after `N` frame-handler invocations
at `desired_fps = F > 0` the session's `game_time` equals `N * 1000 / F`
exactly; each single invocation advances `game_time` by exactly `1000 / F`
milliseconds, and neither `start` nor `stop` changes `game_time`. -/
theorem game_time_after_frames (F : ℚ) (hF : 0 < F) (ks : ℕ → List ℤ) (N : ℕ)
    (p : Player) (hfps : p.desired_fps = F) (h0 : p.game_time = 0) :
    (iterate_frames ks N p).game_time = N * 1000 / F ∧
    (∀ keys q, q.desired_fps = F →
      (on_screen_update keys q).game_time = q.game_time + 1000 / F) ∧
    (∀ q g, (start q g).player.game_time = q.game_time) ∧
    (∀ q g, (stop q g).player.game_time = q.game_time) := by
  refine ⟨?_, ?_, ?_, ?_⟩
  · obtain ⟨-, h2⟩ := iterate_frames_invariants ks N p
    rw [h2, h0, hfps]
    ring
  · intro keys q hq
    simp [on_screen_update, get_ms_per_frame, hq]
  · intro q g
    cases hq : q.playing <;> simp [start, hq, StepResult.player]
  · intro q g
    cases hq : q.playing <;> simp [stop, hq, StepResult.player]

/-- Witness for C4 at `F = 10`, `N = 3`. -/
theorem game_time_after_frames_witness :
    ((0 : ℚ) < 10) ∧ demoPlayer.desired_fps = 10 ∧ demoPlayer.game_time = 0 ∧
      ((iterate_frames (fun _ => []) 3 demoPlayer).game_time = 3 * 1000 / 10 ∧
      (∀ keys q, q.desired_fps = 10 →
        (on_screen_update keys q).game_time = q.game_time + 1000 / 10) ∧
      (∀ q g, (start q g).player.game_time = q.game_time) ∧
      (∀ q g, (stop q g).player.game_time = q.game_time)) :=
  ⟨by norm_num, rfl, rfl,
    game_time_after_frames 10 (by norm_num) (fun _ => []) 3 demoPlayer rfl rfl⟩

/-- C5 (code bug): the clock-construction handler passes the float value of
`_game_time` — not an accessor function — as the clock's
`get_time_ms_func`, so `get_time()` and `get_raw_time()` on every synthetic
clock call a non-callable float and raise `TypeError` instead of returning
the session's current `game_time`. -/
theorem clock_get_time_raises_type_error (p : Player) :
    (on_time_clock p).get_time = Except.error PyErr.typeError ∧
    (on_time_clock p).get_raw_time = Except.error PyErr.typeError ∧
    (Except.error PyErr.typeError : Except PyErr ℚ) ≠ Except.ok p.game_time :=
  ⟨rfl, rfl, fun hcontra => Except.noConfusion hcontra⟩

/-- Witness for C5 at a concrete session. -/
theorem clock_get_time_raises_type_error_witness :
    (on_time_clock demoPlayer).get_time = Except.error PyErr.typeError ∧
    (on_time_clock demoPlayer).get_raw_time = Except.error PyErr.typeError ∧
    (Except.error PyErr.typeError : Except PyErr ℚ) ≠
      Except.ok demoPlayer.game_time :=
  clock_get_time_raises_type_error demoPlayer

/-- C6 (code bug): `get_fps()` computes `int(1.0 / ms_per_frame)` with the
interval in milliseconds, so at `desired_fps = 10` (interval 100 ms) it
returns `0`, not `floor(1000 / interval) = 10` as the spec states. -/
theorem clock_get_fps_wrong_unit :
    (on_time_clock demoPlayer).get_fps = Except.ok 0 ∧
    (⌊(1000 : ℚ) / get_ms_per_frame 10⌋ : ℤ) = 10 ∧
    ((0 : ℤ) ≠ 10) := by
  refine ⟨?_, ?_, by decide⟩
  · have h1 : (on_time_clock demoPlayer).get_fps =
        Except.ok (pyInt (1 / get_ms_per_frame 10)) := rfl
    have h2 : pyInt (1 / get_ms_per_frame 10) = 0 := by
      simp only [pyInt, get_ms_per_frame]
      norm_num [Int.floor_eq_zero_iff, Set.mem_Ico]
    rw [h1, h2]
  · simp only [get_ms_per_frame]
    norm_num

/-- C9: a `with player:` scope on a stopped session starts it on entry and
— whether the body terminates normally or raises — invokes `stop` exactly
once on the way out, restoring the five global entry points to their
pre-entry values. -/
theorem with_scope_stops_once (p : Player) (g : Globals) (h : p.playing = false)
    (body : Globals → BodyOutcome) :
    (runWith p g body).2 = 1 ∧ ((runWith p g body).1).globals = g := by
  unfold runWith
  rw [start_eq_of_not_playing p g h]
  dsimp only
  cases hb : body
      { flip := FRef.wrap g.flip Handler.onScreenUpdate
        update := FRef.wrap g.update Handler.onScreenUpdate
        event_get := FRef.wrap g.event_get Handler.onEventGet
        time_Clock := FRef.wrap g.time_Clock Handler.onTimeClock
        get_ticks := FRef.wrap g.get_ticks Handler.getGameTimeMs } with
  | normal g2 => exact ⟨rfl, rfl⟩
  | raised e g2 => exact ⟨rfl, rfl⟩

/-- Witness for C9 with a normally terminating body and with a raising
body. -/
theorem with_scope_stops_once_witness :
    demoPlayer.playing = false ∧
      ((runWith demoPlayer demoGlobals (fun g => BodyOutcome.normal g)).2 = 1 ∧
        ((runWith demoPlayer demoGlobals (fun g => BodyOutcome.normal g)).1).globals =
          demoGlobals) ∧
      ((runWith demoPlayer demoGlobals
          (fun g => BodyOutcome.raised "boom" g)).2 = 1 ∧
        ((runWith demoPlayer demoGlobals
          (fun g => BodyOutcome.raised "boom" g)).1).globals = demoGlobals) :=
  ⟨rfl,
    with_scope_stops_once demoPlayer demoGlobals rfl (fun g => BodyOutcome.normal g),
    with_scope_stops_once demoPlayer demoGlobals rfl
      (fun g => BodyOutcome.raised "boom" g)⟩

end PyGamePlayerModel
